import Mathlib

/-!
Shallow embedding of the core of `nionutils` (nion-software/nionutils),
covering the parts of the code referenced by the specification claims:

* `Event.fire` (src/nion/utils/Event.py)
* `ReferenceCounted.add_ref` / `remove_ref` (src/nion/utils/ReferenceCounting.py)
* the stream operator callbacks (src/nion/utils/Stream.py)
* the publish/subscribe operators `select` / `cache` (src/nion/utils/PublishSubscribe.py)
* `ThreadPoolTask` and `SingleItemDispatcher` (src/nion/utils/ThreadPool.py)

Python runtime values flowing through the library are modelled as
`PyVal := Option Int`: `none` models Python `None`, `some v` models an
integer-like value (`False`/`True` are `0`/`1`).  Python truthiness is
`pyTruthy`.  Mutable objects are modelled by explicit state passing, an
assertion failure by `Option.none` in a result, and a raised/caught
exception by `Except`.
-/

namespace NionUtils

/-- A Python value: `none` is Python `None`, `some v` an int-like value. -/
abbrev PyVal := Option Int

/-- Python truthiness for `PyVal`: `None` is falsy, an int is truthy iff nonzero. -/
def pyTruthy : PyVal → Bool
  | none => false
  | some v => v ≠ 0

/-! ## Event (src/nion/utils/Event.py)

`Event.fire` takes a snapshot of the listeners and runs

    try:
        for listener in listeners:
            if listener:
                listener.call(*args, **keywords)
    except Exception as e:
        logging.debug(...); traceback.print_exc(); traceback.print_stack()

A listener is modelled as an identifier together with a call function
that either succeeds or raises (`Except String Unit`).  `fireLoop` is the
body of the `try` block: it returns the identifiers of the listeners that
were invoked (a raising listener is invoked, then the loop stops because
the exception leaves the `for` loop) and the escaping exception, if any.
-/

/-- One registered listener: an identifier and its call function. -/
abbrev EventListener := Nat × (PyVal → Except String Unit)

/-- The body of the `try` block of `Event.fire`: call each listener in order;
an exception from a listener leaves the loop at once, so later listeners are
not called.  Returns (identifiers of listeners invoked, escaping exception). -/
def fireLoop : List EventListener → PyVal → List Nat × Option String
  | [], _ => ([], none)
  | (i, f) :: rest, arg =>
    match f arg with
    | .error e => ([i], some e)
    | .ok _ =>
      let r := fireLoop rest arg
      (i :: r.1, r.2)

/-- Observable outcome of a call to `Event.fire`. -/
structure FireResult where
  /-- identifiers of the listeners that were invoked, in order -/
  called : List Nat
  /-- the exception caught and logged by the `except` handler, if any -/
  logged : Option String
  /-- the exception propagated to the caller of `fire` (always `none`:
  the `except Exception` handler swallows every listener exception) -/
  propagated : Option String
  deriving DecidableEq, Repr

/-- `Event.fire`: run the listener loop inside `try`/`except`; an exception
escaping the loop is logged, and nothing propagates to the caller. -/
def Event.fire (listeners : List EventListener) (arg : PyVal) : FireResult :=
  let r := fireLoop listeners arg
  { called := r.1, logged := r.2, propagated := none }

/-! ## ReferenceCounted (src/nion/utils/ReferenceCounting.py) -/

/-- The state of one `ReferenceCounted` object: the private `__ref_count`
and `__active` fields, plus an instrumentation counter recording how many
times the finalize hook `about_to_delete` has run. -/
structure ReferenceCounted where
  ref_count : Nat
  active : Bool
  finalize_count : Nat
  deriving DecidableEq, Repr

/-- A freshly constructed `ReferenceCounted`: count 0, active, finalizer not run. -/
def ReferenceCounted.new : ReferenceCounted :=
  { ref_count := 0, active := true, finalize_count := 0 }

/-- `add_ref`: increment the count and return self. -/
def add_ref (s : ReferenceCounted) : ReferenceCounted :=
  { s with ref_count := s.ref_count + 1 }

/-- `remove_ref(check)`: assert the count is positive (`none` models the
assertion failure), decrement, and when the object is active, the count
reached zero and `check` holds, deactivate and run `about_to_delete`. -/
def remove_ref (check : Bool) (s : ReferenceCounted) : Option ReferenceCounted :=
  if s.ref_count = 0 then
    none
  else
    let t := { s with ref_count := s.ref_count - 1 }
    if t.active ∧ t.ref_count = 0 ∧ check then
      some { t with active := false, finalize_count := t.finalize_count + 1 }
    else
      some t

/-- One client operation on a `ReferenceCounted` object. -/
inductive RCOp
  | add
  | remove
  deriving DecidableEq, Repr

/-- Run one operation (`remove` is a plain `remove_ref()`, i.e. `check=True`). -/
def RCOp.run : RCOp → ReferenceCounted → Option ReferenceCounted
  | .add, s => some (add_ref s)
  | .remove, s => remove_ref true s

/-- Run a sequence of `add_ref`/`remove_ref()` calls; `none` as soon as an
assertion fails. -/
def runOps : List RCOp → ReferenceCounted → Option ReferenceCounted
  | [], s => some s
  | op :: rest, s => (op.run s).bind (runOps rest)

/-- Number of `add_ref` calls in a sequence. -/
def countAdds : List RCOp → Nat
  | [] => 0
  | .add :: rest => countAdds rest + 1
  | .remove :: rest => countAdds rest

/-- Number of `remove_ref` calls in a sequence. -/
def countRemoves : List RCOp → Nat
  | [] => 0
  | .add :: rest => countRemoves rest
  | .remove :: rest => countRemoves rest + 1

/-! ## Stream operator callbacks (src/nion/utils/Stream.py)

Each stream node owns an `Event` (`value_stream`) that it fires with new
values.  We model each node's value-changed callback as a pure function
from the node's mutable state and the incoming value to the new state and
the list of values fired on `value_stream` by that callback.
-/

/-- `ValueStream.value` setter followed by `send_value`:

    if self.__value != value: self.__value = value; self.value_stream.fire(self.value)

Returns (new cached `__value`, values fired). -/
def valueStreamSetValue (cached : PyVal) (value : PyVal) : PyVal × List PyVal :=
  if cached ≠ value then (value, [value]) else (cached, [])

/-- `MapStream.update_value`:

    new_value = value_fn(new_value)
    if new_value != self.__value: self.__value = new_value; self.value_stream.fire(self.__value)

Returns (new cached `__value`, values fired). -/
def mapStreamUpdateValue (value_fn : PyVal → PyVal) (cached : PyVal) (new_value : PyVal) :
    PyVal × List PyVal :=
  let nv := value_fn new_value
  if nv ≠ cached then (nv, [nv]) else (cached, [])

/-- `CombineLatestStream.__handle_stream_value` followed by `__values_changed`:

    self.__values[index] = value
    self.__value = self.__value_fn(*self.__values)
    self.value_stream.fire(self.__value)

Fires unconditionally.  Returns (new `__values`, new `__value`, values fired). -/
def combineLatestHandleStreamValue (value_fn : List PyVal → PyVal) (values : List PyVal)
    (index : Nat) (value : PyVal) : List PyVal × PyVal × List PyVal :=
  let values := values.set index value
  let nv := value_fn values
  (values, nv, [nv])

/-- `OptionalStream.__value_changed`:

    if self.__pred(value): self.value_stream.fire(value)
    else: self.value_stream.fire(None)

Fires unconditionally (one fire per upstream notification). -/
def optionalStreamValueChanged (pred : PyVal → Bool) (value : PyVal) : List PyVal :=
  if pred value then [value] else [none]

/-- The `OptionalStream.value` property: `return None`, always. -/
def optionalStreamValue : PyVal := none

/-- Feed a sequence of upstream notifications through an `OptionalStream`
and collect everything fired on its `value_stream`. -/
def optionalStreamFires (pred : PyVal → Bool) (values : List PyVal) : List PyVal :=
  (values.map (optionalStreamValueChanged pred)).flatten

/-- `PropertyChangedEventStream.__property_changed` when the key matches:

    new_value = getattr(...)
    if not self.__cmp(new_value, self.__value):
        self.__value = new_value; self.value_stream.fire(self.__value)

Returns (new cached `__value`, values fired). -/
def propertyChangedUpdate (cmp : PyVal → PyVal → Bool) (cached : PyVal) (new_value : PyVal) :
    PyVal × List PyVal :=
  if ¬ cmp new_value cached then (new_value, [new_value]) else (cached, [])

/-! ### DebounceStream (src/nion/utils/Stream.py)

`DebounceStream.__value_changed` stores the incoming value into the shared
`DebounceValue` holder and, only when no debounce task is pending, creates
a task that sleeps `period` and then fires whatever the holder contains:

    self.__value_holder.value = value
    if not self.__debounce_task.is_active:
        async def debounce_delay(...): await asyncio.sleep(period); value_stream.fire(value_holder.value)
        self.__debounce_task.create_task(...)

Time is modelled discretely (`Nat`); a pending task is its absolute fire
time.  Upstream updates are timestamped; the simulator fires a due task
before handling an update that arrives at or after the task's fire time,
and flushes the pending task at the end.
-/

/-- Debounce node state: the `DebounceValue` holder and the pending task's
absolute fire time (`none` when `__debounce_task` is not active). -/
structure DebounceState where
  holder : PyVal
  taskDue : Option Nat
  deriving DecidableEq, Repr

/-- `DebounceStream.__value_changed` at time `t`: store the value; schedule a
task at `t + period` only if none is pending (a pending task is not restarted). -/
def debounceValueChanged (period : Nat) (s : DebounceState) (t : Nat) (value : PyVal) :
    DebounceState :=
  let s := { s with holder := value }
  match s.taskDue with
  | none => { s with taskDue := some (t + period) }
  | some _ => s

/-- Handle one timestamped upstream update: first let a task whose fire time
has arrived fire (emitting the holder value at its fire time), then run the
value-changed callback.  Returns (new state, emissions). -/
def debounceStep (period : Nat) (s : DebounceState) (tv : Nat × PyVal) :
    DebounceState × List (Nat × PyVal) :=
  match s.taskDue with
  | some d =>
    if d ≤ tv.1 then
      (debounceValueChanged period { s with taskDue := none } tv.1 tv.2, [(d, s.holder)])
    else
      (debounceValueChanged period s tv.1 tv.2, [])
  | none => (debounceValueChanged period s tv.1 tv.2, [])

/-- Run a timestamped update sequence through a debounce node, then flush the
pending task (letting the event loop run to quiescence).  Returns the list of
(time, value) emissions fired on `value_stream`. -/
def debounceRun (period : Nat) (s : DebounceState) : List (Nat × PyVal) → List (Nat × PyVal)
  | [] =>
    match s.taskDue with
    | some d => [(d, s.holder)]
    | none => []
  | tv :: rest =>
    let r := debounceStep period s tv
    r.2 ++ debounceRun period r.1 rest

/-! ## PublishSubscribe operators (src/nion/utils/PublishSubscribe.py) -/

/-- `PublisherSelect`'s subscription callback: `self.__last_value =
self.__select_fn(value); self.notify_next_value(self.__last_value)`.
Returns (new `__last_value`, values notified downstream). -/
def publisherSelectNextValue (select_fn : PyVal → PyVal) (value : PyVal) : PyVal × List PyVal :=
  let nv := select_fn value
  (nv, [nv])

/-- `PublisherCache`'s subscription callback:

    if value != self.__cached_value:
        self.notify_next_value(value); self.__cached_value = value

Returns (new `__cached_value`, values notified downstream). -/
def publisherCacheNextValue (cached : PyVal) (value : PyVal) : PyVal × List PyVal :=
  if value ≠ cached then (value, [value]) else (cached, [])

/-- Run a sequence of values through a `PublisherCache` (initial
`__cached_value` is `None`), collecting the downstream notifications. -/
def publisherCacheRun (cached : PyVal) : List PyVal → PyVal × List PyVal
  | [] => (cached, [])
  | v :: rest =>
    let r := publisherCacheNextValue cached v
    let r2 := publisherCacheRun r.1 rest
    (r2.1, r.2 ++ r2.2)

/-- The `select(f).cache()` pipeline with an already-attached subscriber:
each value published upstream passes through `select_fn`, then through the
cache's duplicate gate; returns the next-value notifications delivered to
the downstream subscriber. -/
def selectCachePipeline (select_fn : PyVal → PyVal) (inputs : List PyVal) : List PyVal :=
  (publisherCacheRun none (inputs.map select_fn)).2

/-- `PublisherSelect.subscribex` replay for a late subscriber:
`if self.__last_value: self.notify_next_value(self.__last_value)` —
the replay is gated on Python truthiness of the stored value. -/
def publisherSelectReplay (last_value : PyVal) : List PyVal :=
  if pyTruthy last_value then [last_value] else []

/-- `PublisherCache.subscribex` replay for a late subscriber:
`if self.__cached_value: self.notify_next_value(self.__cached_value)`. -/
def publisherCacheReplay (cached_value : PyVal) : List PyVal :=
  if pyTruthy cached_value then [cached_value] else []

/-- `PublisherSelect.__last_value` after a sequence of upstream publishes:
`None` initially, afterwards `select_fn` of the most recent published value. -/
def publisherSelectLast (select_fn : PyVal → PyVal) : List PyVal → PyVal
  | [] => none
  | [v] => select_fn v
  | _ :: v :: rest => publisherSelectLast select_fn (v :: rest)

/-! ## ThreadPoolTask (src/nion/utils/ThreadPool.py)

`execute` and `cancel` both run under the task's `RLock`, so any sequence
of calls is serialized; we model it as a list of operations.  Both methods
test `if self.__fn:`, set `self.__fn = None` and call the finished
callback; `execute` additionally runs the function (inside `try`/`except`,
so an exception inside `fn` still counts as the one run and the finished
callback still fires).
-/

/-- One call on a `ThreadPoolTask`. -/
inductive TaskOp
  | execute
  | cancel
  deriving DecidableEq, Repr

/-- Observable state of a `ThreadPoolTask`: whether `__fn` is still set,
how many times the wrapped function ran, and how many times the
`__finished_fn` callback was invoked. -/
structure TaskState where
  fnPresent : Bool
  fnRuns : Nat
  finishedCalls : Nat
  deriving DecidableEq, Repr

/-- A freshly queued task. -/
def TaskState.new : TaskState := { fnPresent := true, fnRuns := 0, finishedCalls := 0 }

/-- Run one `execute` or `cancel` call on the task. -/
def taskStep (op : TaskOp) (s : TaskState) : TaskState :=
  if s.fnPresent then
    match op with
    | .execute => { fnPresent := false, fnRuns := s.fnRuns + 1, finishedCalls := s.finishedCalls + 1 }
    | .cancel => { fnPresent := false, fnRuns := s.fnRuns, finishedCalls := s.finishedCalls + 1 }
  else
    s

/-- Run a serialized sequence of `execute`/`cancel` calls on a task. -/
def runTask (ops : List TaskOp) (s : TaskState) : TaskState :=
  ops.foldl (fun s op => taskStep op s) s

/-! ## SingleItemDispatcher (src/nion/utils/ThreadPool.py)

All mutations of `DispatcherInfo` relevant to the single-flight argument
happen under `is_dispatching_lock` or are single field writes, so we model
the dispatcher together with its background `dispatch_task` as an
interleaving of atomic events:

* `dispatch`: the body of `SingleItemDispatcher.dispatch` — set
  `is_dispatch_pending`, and submit `dispatch_task` to the executor only
  when no `dispatch_future` exists;
* `mutate v`: a caller thread changing the shared state that the work
  function reads;
* `taskStep`: the background task advancing by one atomic step.

The task's control flow (no cancellation, minimum period elapsed) is:

    while True:
        dispatch_thread_cancel.wait(0.05)           -- gatherWait
        dispatcher_info.is_dispatch_pending = False -- clearPending
        fn()                                        -- fnBegin (read) / fnEnd (complete)
        with is_dispatching_lock:                   -- finallyCheck
            if not is_dispatch_pending:
                dispatch_future = None; break

The work function is modelled as reading the shared value when it starts
(`fnBegin`) and completing later (`fnEnd`), so an event can be interleaved
while it is still executing.
-/

/-- Program counter of the background `dispatch_task`. -/
inductive TaskPC
  | gatherWait
  | clearPending
  | fnBegin
  | fnEnd
  | finallyCheck
  | idle
  deriving DecidableEq, Repr

/-- `DispatcherInfo` plus the observables of the scenario: the shared value
the work function reads, the value read by the currently executing run, the
values observed by completed runs, and how many tasks were submitted to the
executor. -/
structure DispatcherState where
  pending : Bool
  futureActive : Bool
  pc : TaskPC
  shared : Int
  reg : Int
  observed : List Int
  submitCount : Nat
  deriving DecidableEq, Repr

/-- A dispatcher at rest. -/
def DispatcherState.new (shared : Int) : DispatcherState :=
  { pending := false, futureActive := false, pc := .idle, shared := shared,
    reg := 0, observed := [], submitCount := 0 }

/-- One interleaved event. -/
inductive DispatchEvent
  | dispatch
  | mutate (v : Int)
  | taskStep
  deriving DecidableEq, Repr

/-- Apply one event.  `dispatch` sets the pending flag and submits the task
only when no future exists; `taskStep` advances the background task when one
is active. -/
def dispatcherApply (s : DispatcherState) : DispatchEvent → DispatcherState
  | .dispatch =>
    let s := { s with pending := true }
    if s.futureActive then s
    else { s with futureActive := true, pc := .gatherWait, submitCount := s.submitCount + 1 }
  | .mutate v => { s with shared := v }
  | .taskStep =>
    if s.futureActive then
      match s.pc with
      | .gatherWait => { s with pc := .clearPending }
      | .clearPending => { s with pending := false, pc := .fnBegin }
      | .fnBegin => { s with reg := s.shared, pc := .fnEnd }
      | .fnEnd => { s with observed := s.observed ++ [s.reg], pc := .finallyCheck }
      | .finallyCheck =>
        if s.pending then { s with pc := .gatherWait }
        else { s with futureActive := false, pc := .idle }
      | .idle => s
    else s

/-- Run an interleaving of events. -/
def dispatcherRun (s : DispatcherState) (events : List DispatchEvent) : DispatcherState :=
  events.foldl dispatcherApply s

/-- The interleaving of the claim: a first `dispatch`, the task starts and
is in the middle of executing the work function when the shared state is
mutated and a second `dispatch` arrives; then the system runs to rest. -/
def twoDispatchScenario (v2 : Int) : List DispatchEvent :=
  [.dispatch, .taskStep, .taskStep, .taskStep,
   .mutate v2, .dispatch,
   .taskStep, .taskStep, .taskStep, .taskStep, .taskStep, .taskStep, .taskStep]

/-! ## Helper lemmas -/

/-- Characterization of one `remove_ref` call on a state with a positive count. -/
theorem remove_ref_eq (c : Bool) (s : ReferenceCounted) (h : s.ref_count ≠ 0) :
    remove_ref c s =
      some (if s.active = true ∧ s.ref_count = 1 ∧ c = true then
        { ref_count := 0, active := false, finalize_count := s.finalize_count + 1 }
      else { s with ref_count := s.ref_count - 1 }) := by
  unfold remove_ref
  rw [if_neg h]
  by_cases hc : s.active = true ∧ s.ref_count - 1 = 0 ∧ c = true
  · rw [if_pos ?side]
    · obtain ⟨h1, h2, h3⟩ := hc
      rw [if_pos ⟨h1, by omega, h3⟩]
      simp [h2]
    · simpa using hc
  · rw [if_neg ?side2]
    · rw [if_neg ?side3]
      intro ⟨h1, h2, h3⟩
      exact hc ⟨h1, by omega, h3⟩
    · simpa using hc

/-- `remove_ref` fails its assertion exactly on a zero count. -/
theorem remove_ref_zero (c : Bool) (s : ReferenceCounted) (h : s.ref_count = 0) :
    remove_ref c s = none := by
  unfold remove_ref
  rw [if_pos h]

@[simp] theorem add_ref_ref_count (s : ReferenceCounted) :
    (add_ref s).ref_count = s.ref_count + 1 := rfl

@[simp] theorem add_ref_active (s : ReferenceCounted) :
    (add_ref s).active = s.active := rfl

@[simp] theorem add_ref_finalize_count (s : ReferenceCounted) :
    (add_ref s).finalize_count = s.finalize_count := rfl

/-- Once the finalize hook has run (`active = false`), no later operation
runs it again or reactivates the object. -/
theorem runOps_inactive (ops : List RCOp) (s s' : ReferenceCounted)
    (hrun : runOps ops s = some s') (hact : s.active = false) :
    s'.active = false ∧ s'.finalize_count = s.finalize_count := by
  induction ops generalizing s with
  | nil =>
    simp only [runOps, Option.some_inj] at hrun
    exact hrun ▸ ⟨hact, rfl⟩
  | cons op rest ih =>
    cases op with
    | add =>
      simp only [runOps, RCOp.run, Option.bind_some] at hrun
      have h2 : (add_ref s).active = false := hact
      have := ih (add_ref s) hrun h2
      exact ⟨this.1, this.2⟩
    | remove =>
      simp only [runOps, RCOp.run] at hrun
      by_cases h0 : s.ref_count = 0
      · rw [remove_ref_zero _ _ h0] at hrun
        simp at hrun
      · rw [remove_ref_eq _ _ h0] at hrun
        rw [if_neg (by simp [hact])] at hrun
        exact ih { s with ref_count := s.ref_count - 1 } hrun hact

/-- While the object is active, a run ending at count zero either was empty
or ran the finalize hook exactly once along the way. -/
theorem runOps_finalize_once (ops : List RCOp) (s s' : ReferenceCounted)
    (hrun : runOps ops s = some s') (hact : s.active = true) (hz : s'.ref_count = 0) :
    (ops = [] ∧ s' = s) ∨
      (s'.active = false ∧ s'.finalize_count = s.finalize_count + 1) := by
  induction ops generalizing s with
  | nil =>
    simp only [runOps, Option.some_inj] at hrun
    exact Or.inl ⟨rfl, hrun.symm⟩
  | cons op rest ih =>
    cases op with
    | add =>
      simp only [runOps, RCOp.run, Option.bind_some] at hrun
      have h2 : (add_ref s).active = true := hact
      rcases ih (add_ref s) hrun h2 with ⟨hr, hs⟩ | h
      · rw [hs] at hz
        simp at hz
      · exact Or.inr ⟨h.1, h.2⟩
    | remove =>
      simp only [runOps, RCOp.run] at hrun
      by_cases h0 : s.ref_count = 0
      · rw [remove_ref_zero _ _ h0] at hrun
        simp at hrun
      · rw [remove_ref_eq _ _ h0] at hrun
        by_cases h1 : s.ref_count = 1
        · rw [if_pos ⟨hact, h1, rfl⟩] at hrun
          have := runOps_inactive rest _ s' hrun rfl
          exact Or.inr ⟨this.1, this.2⟩
        · rw [if_neg (by simp [h1])] at hrun
          have h2 : ({ s with ref_count := s.ref_count - 1 } : ReferenceCounted).active = true :=
            hact
          rcases ih _ hrun h2 with ⟨hr, hs⟩ | h
          · rw [hs] at hz
            simp at hz
            omega
          · exact Or.inr ⟨h.1, h.2⟩

/-- A run in which every `remove_ref` finds a positive count succeeds, and
counts balance: final count plus removes equals initial count plus adds. -/
theorem runOps_total (ops : List RCOp) (s : ReferenceCounted)
    (hpre : ∀ p q, ops = p ++ q → countRemoves p ≤ countAdds p + s.ref_count) :
    ∃ s', runOps ops s = some s' ∧
      s'.ref_count + countRemoves ops = s.ref_count + countAdds ops := by
  induction ops generalizing s with
  | nil => exact ⟨s, rfl, by simp [countAdds, countRemoves]⟩
  | cons op rest ih =>
    cases op with
    | add =>
      have hside : ∀ p q, rest = p ++ q →
          countRemoves p ≤ countAdds p + (add_ref s).ref_count := by
        intro p q hpq
        have := hpre (.add :: p) q (by rw [hpq]; rfl)
        simp only [countAdds, countRemoves] at this ⊢
        rw [add_ref_ref_count]
        omega
      obtain ⟨s', hrun, hcount⟩ := ih (add_ref s) hside
      refine ⟨s', hrun, ?_⟩
      simp only [countAdds, countRemoves] at hcount ⊢
      rw [add_ref_ref_count] at hcount
      omega
    | remove =>
      have hpos : 1 ≤ s.ref_count := by
        have := hpre [.remove] rest rfl
        simp only [countAdds, countRemoves] at this
        omega
      have h0 : s.ref_count ≠ 0 := by omega
      obtain ⟨t, ht0, ht⟩ : ∃ t, remove_ref true s = some t ∧
          t.ref_count = s.ref_count - 1 := by
        rw [remove_ref_eq true s h0]
        by_cases hc : s.active = true ∧ s.ref_count = 1 ∧ (true : Bool) = true
        · refine ⟨_, by rw [if_pos hc], ?_⟩
          obtain ⟨-, h1, -⟩ := hc
          simp [h1]
        · exact ⟨_, by rw [if_neg hc], rfl⟩
      have hside : ∀ p q, rest = p ++ q →
          countRemoves p ≤ countAdds p + t.ref_count := by
        intro p q hpq
        have := hpre (.remove :: p) q (by rw [hpq]; rfl)
        simp only [countAdds, countRemoves] at this ⊢
        rw [ht]
        omega
      obtain ⟨s', hrun, hcount⟩ := ih t hside
      refine ⟨s', ?_, ?_⟩
      · show (RCOp.remove.run s).bind (runOps rest) = some s'
        show (remove_ref true s).bind (runOps rest) = some s'
        rw [ht0]
        exact hrun
      · simp only [countAdds, countRemoves] at hcount ⊢
        rw [ht] at hcount
        omega

/-- Unfolding `fireLoop` over a block of succeeding listeners followed by a
raising one: every listener up to and including the raiser is called, the
loop then stops with the escaping exception. -/
theorem fireLoop_append (pre post : List EventListener) (j : Nat)
    (raiser : PyVal → Except String Unit) (arg : PyVal) (msg : String)
    (hpre : ∀ l ∈ pre, ∃ u, l.2 arg = Except.ok u)
    (hraise : raiser arg = Except.error msg) :
    fireLoop (pre ++ (j, raiser) :: post) arg = (pre.map Prod.fst ++ [j], some msg) := by
  induction pre with
  | nil => simp [fireLoop, hraise]
  | cons l rest ih =>
    obtain ⟨i, f⟩ := l
    obtain ⟨u, hu⟩ := hpre (i, f) (List.mem_cons_self _ _)
    have hu' : f arg = Except.ok u := hu
    have ihh := ih fun l hl => hpre l (List.mem_cons_of_mem _ hl)
    simp only [List.cons_append, fireLoop, hu', List.append_eq, ihh, List.map_cons]

/-- Claim C1 (counterexample): with three listeners of which the middle one
raises, `Event.fire` calls listeners 0 and 1 only; listener 2 — registered
after the raising one — is never called, contradicting the claim that every
remaining listener is still called. -/
theorem event_fire_stops_at_raising_listener :
    (Event.fire [(0, fun _ => Except.ok ()), (1, fun _ => Except.error "boom"),
      (2, fun _ => Except.ok ())] (some 0)).called = [0, 1] ∧
    2 ∉ (Event.fire [(0, fun _ => Except.ok ()), (1, fun _ => Except.error "boom"),
      (2, fun _ => Except.ok ())] (some 0)).called := by
  refine ⟨rfl, ?_⟩
  show (2 : Nat) ∉ ([0, 1] : List Nat)
  decide

/-- Claim C1 (amended): if listener `Lᵢ` raises during `fire`, the exception
is caught at the boundary of the whole notification loop and logged, and
nothing propagates to the caller of `fire`; but the remaining listeners
`Lᵢ₊₁..Lₙ` are NOT called — the loop stops at the raising listener. -/
theorem event_fire_exception_caught_aborts_rest (pre post : List EventListener) (j : Nat)
    (raiser : PyVal → Except String Unit) (arg : PyVal) (msg : String)
    (hpre : ∀ l ∈ pre, ∃ u, l.2 arg = Except.ok u)
    (hraise : raiser arg = Except.error msg) :
    Event.fire (pre ++ (j, raiser) :: post) arg =
      { called := pre.map Prod.fst ++ [j], logged := some msg, propagated := none } := by
  unfold Event.fire
  rw [fireLoop_append pre post j raiser arg msg hpre hraise]

/-- Witness for the amended C1 theorem at a concrete listener list. -/
theorem event_fire_exception_caught_aborts_rest_witness :
    Event.fire [(0, fun _ => Except.ok ()), (5, fun _ => Except.error "err"),
      (7, fun _ => Except.ok ())] (some 3) =
      { called := [0, 5], logged := some "err", propagated := none } :=
  event_fire_exception_caught_aborts_rest [(0, fun _ => Except.ok ())]
    [(7, fun _ => Except.ok ())] 5 (fun _ => Except.error "err") (some 3) "err"
    (by
      intro l hl
      simp only [List.mem_singleton] at hl
      subst hl
      exact ⟨(), rfl⟩)
    rfl

/-- Claim C2: for every balanced interleaving of N `add_ref` and N
`remove_ref` calls (N ≥ 1) in which the count is never driven below zero,
the run succeeds and the finalize hook runs exactly once; a single
`remove_ref` step increments the finalize counter precisely when it
transitions the count from 1 to 0 on an active object; `add_ref` returns
the object itself with the count incremented; and `remove_ref` on a count
of zero fails its assertion. -/
theorem referenceCounted_balanced_finalize_once (ops : List RCOp)
    (hbal : countAdds ops = countRemoves ops) (hN : 1 ≤ countAdds ops)
    (hpre : ∀ p q, ops = p ++ q → countRemoves p ≤ countAdds p) :
    (∃ s, runOps ops ReferenceCounted.new = some s ∧
      s.finalize_count = 1 ∧ s.ref_count = 0 ∧ s.active = false) ∧
    (∀ t, add_ref t = { t with ref_count := t.ref_count + 1 }) ∧
    (∀ t, t.ref_count = 0 → remove_ref true t = none) ∧
    (∀ t u, remove_ref true t = some u →
      (u.finalize_count = t.finalize_count + 1 ↔ t.ref_count = 1 ∧ t.active = true)) := by
  refine ⟨?_, fun t => rfl, fun t h => remove_ref_zero true t h, ?_⟩
  · obtain ⟨s', hrun, hcount⟩ := runOps_total ops ReferenceCounted.new
      (by
        intro p q h
        have := hpre p q h
        show countRemoves p ≤ countAdds p + 0
        omega)
    have hz : s'.ref_count = 0 := by
      have h0 : (ReferenceCounted.new).ref_count = 0 := rfl
      omega
    rcases runOps_finalize_once ops ReferenceCounted.new s' hrun rfl hz with ⟨hnil, -⟩ | ⟨ha, hf⟩
    · subst hnil
      simp [countAdds] at hN
    · exact ⟨s', hrun, hf, hz, ha⟩
  · intro t u hrem
    by_cases h0 : t.ref_count = 0
    · rw [remove_ref_zero true t h0] at hrem
      simp at hrem
    · rw [remove_ref_eq true t h0] at hrem
      by_cases hc : t.active = true ∧ t.ref_count = 1 ∧ (true : Bool) = true
      · rw [if_pos hc] at hrem
        simp only [Option.some_inj] at hrem
        rw [← hrem]
        simp only [true_iff]
        exact ⟨hc.2.1, hc.1⟩
      · rw [if_neg hc] at hrem
        simp only [Option.some_inj] at hrem
        rw [← hrem]
        constructor
        · intro h
          simp at h
        · intro ⟨hr1, hr2⟩
          exact absurd ⟨hr2, hr1, rfl⟩ hc

/-- Witness for the C2 theorem at the sequence `[add_ref, remove_ref]`. -/
theorem referenceCounted_balanced_finalize_once_witness :
    (∃ s, runOps [RCOp.add, RCOp.remove] ReferenceCounted.new = some s ∧
      s.finalize_count = 1 ∧ s.ref_count = 0 ∧ s.active = false) ∧
    (∀ t, add_ref t = { t with ref_count := t.ref_count + 1 }) ∧
    (∀ t, t.ref_count = 0 → remove_ref true t = none) ∧
    (∀ t u, remove_ref true t = some u →
      (u.finalize_count = t.finalize_count + 1 ↔ t.ref_count = 1 ∧ t.active = true)) := by
  apply referenceCounted_balanced_finalize_once [RCOp.add, RCOp.remove] rfl (by decide)
  intro p q h
  rcases p with - | ⟨op1, p⟩
  · decide
  · rcases p with - | ⟨op2, p⟩
    · simp only [List.cons_append, List.nil_append, List.cons.injEq] at h
      rw [← h.1]
      decide
    · simp only [List.cons_append, List.cons.injEq] at h
      obtain ⟨h1, h2, h3⟩ := h
      have hp : p = [] := by
        rcases List.append_eq_nil.mp h3.symm with ⟨hp, -⟩
        exact hp
      subst hp
      rw [← h1, ← h2]
      decide

/-- Claim C10: `remove_ref(check=False)` on an active object with count 1
decrements the count to 0 without running the finalize hook and leaves the
object active; a later `add_ref` followed by a plain `remove_ref()` then
runs the finalize hook exactly once. -/
theorem remove_ref_nocheck_defers_finalize (s : ReferenceCounted)
    (h1 : s.ref_count = 1) (h2 : s.active = true) :
    remove_ref false s = some { s with ref_count := 0 } ∧
    ({ s with ref_count := 0 } : ReferenceCounted).active = true ∧
    ({ s with ref_count := 0 } : ReferenceCounted).finalize_count = s.finalize_count ∧
    remove_ref true (add_ref { s with ref_count := 0 }) =
      some { ref_count := 0, active := false, finalize_count := s.finalize_count + 1 } := by
  refine ⟨?_, h2, rfl, ?_⟩
  · rw [remove_ref_eq false s (by omega)]
    rw [if_neg (by simp)]
    simp [h1]
  · rw [remove_ref_eq true _ (by simp)]
    rw [if_pos ⟨h2, by simp, rfl⟩]
    rfl

/-- Witness for the C10 theorem at a concrete object. -/
theorem remove_ref_nocheck_defers_finalize_witness :
    remove_ref false { ref_count := 1, active := true, finalize_count := 0 } =
      some { ref_count := 0, active := true, finalize_count := 0 } ∧
    ({ ref_count := 1, active := true, finalize_count := 0 } : ReferenceCounted).active = true ∧
    (0 : Nat) = 0 ∧
    remove_ref true (add_ref { ref_count := 0, active := true, finalize_count := 0 }) =
      some { ref_count := 0, active := false, finalize_count := 1 } :=
  remove_ref_nocheck_defers_finalize { ref_count := 1, active := true, finalize_count := 0 }
    rfl rfl

/-- Claim C3: when `dispatch` is called a second time while the first
call's work function is still executing, exactly two executions of the work
function complete (the `observed` list has exactly two entries), the second
execution reads the state mutated between the two `dispatch` calls, only
one task was ever submitted to the executor, and the dispatcher returns to
rest; moreover `dispatch` on a dispatcher with an in-flight execution only
sets the pending flag and never submits a second concurrent execution. -/
theorem singleItemDispatcher_two_dispatches (v1 v2 : Int) :
    (dispatcherRun (DispatcherState.new v1) (twoDispatchScenario v2)).observed = [v1, v2] ∧
    (dispatcherRun (DispatcherState.new v1) (twoDispatchScenario v2)).submitCount = 1 ∧
    (dispatcherRun (DispatcherState.new v1) (twoDispatchScenario v2)).futureActive = false ∧
    (∀ s : DispatcherState, dispatcherApply { s with futureActive := true } .dispatch =
      { s with futureActive := true, pending := true }) := by
  refine ⟨?_, ?_, ?_, fun _ => rfl⟩ <;>
    simp [dispatcherRun, twoDispatchScenario, DispatcherState.new, dispatcherApply]

/-- Claim C4 (counterexample): an `OptionalStream` whose upstream produces
the value 5 twice in a row fires its notification channel once per upstream
notification — two fires in total — so the duplicate does cause a second
fire, contrary to the claim. -/
theorem optionalStream_refires_duplicate :
    optionalStreamFires (fun v => pyTruthy v) [some 5, some 5] = [some 5, some 5] ∧
    (optionalStreamFires (fun v => pyTruthy v) [some 5, some 5]).length = 2 :=
  ⟨rfl, rfl⟩

/-- Claim C4 (amended): `MapStream` and `PropertyChangedEventStream` gate
their notification on the configured equality and do not fire again when the
(mapped) value is unchanged, but `CombineLatestStream` and `OptionalStream`
fire their channel exactly once on every upstream notification, including a
duplicate of the previous value. -/
theorem streamOperators_duplicate_gating :
    (∀ (f : PyVal → PyVal) (c v : PyVal), f v = c → mapStreamUpdateValue f c v = (c, [])) ∧
    (∀ (cmp : PyVal → PyVal → Bool) (c v : PyVal), cmp v c = true →
      propertyChangedUpdate cmp c v = (c, [])) ∧
    (∀ (fn : List PyVal → PyVal) (vs : List PyVal) (i : Nat) (v : PyVal),
      ((combineLatestHandleStreamValue fn vs i v).2.2).length = 1) ∧
    (∀ (p : PyVal → Bool) (v : PyVal), (optionalStreamValueChanged p v).length = 1) := by
  refine ⟨?_, ?_, fun fn vs i v => rfl, ?_⟩
  · intro f c v h
    simp [mapStreamUpdateValue, h]
  · intro cmp c v h
    simp [propertyChangedUpdate, h]
  · intro p v
    unfold optionalStreamValueChanged
    split <;> rfl

/-- Witness for the amended C4 theorem at concrete operators and values. -/
theorem streamOperators_duplicate_gating_witness :
    mapStreamUpdateValue (fun v => v) (some 5) (some 5) = (some 5, []) ∧
    propertyChangedUpdate (fun a b => a == b) (some 5) (some 5) = (some 5, []) ∧
    ((combineLatestHandleStreamValue (fun _ => some 0) [some 2, some 3] 0 (some 5)).2.2).length
      = 1 ∧
    (optionalStreamValueChanged (fun v => pyTruthy v) (some 4)).length = 1 :=
  ⟨streamOperators_duplicate_gating.1 _ _ _ rfl,
   streamOperators_duplicate_gating.2.1 _ _ _ rfl,
   streamOperators_duplicate_gating.2.2.1 _ _ _ _,
   streamOperators_duplicate_gating.2.2.2 _ _⟩

/-- Claim C5 (counterexample): an `OptionalStream` republishes the upstream
value 5 on its notification channel (its predicate holds for 5), yet reading
its `value` property afterwards returns `None`, not 5 — the property is
hard-coded to `return None`. -/
theorem optionalStream_value_always_none :
    optionalStreamValueChanged (fun v => pyTruthy v) (some 5) = [some 5] ∧
    optionalStreamValue = none ∧ optionalStreamValue ≠ some 5 :=
  ⟨rfl, rfl, by decide⟩

/-- Claim C5 (amended): `ValueStream` and `MapStream` keep `value` equal to
the last value fired on their notification channel (when a callback fires
nothing, the cached value is unchanged), but `OptionalStream.value` always
returns `None`, even right after the stream republished a value. -/
theorem stream_value_caches_last_fired :
    (∀ c v : PyVal, (valueStreamSetValue c v).2 = [] ∧ (valueStreamSetValue c v).1 = c ∨
      (valueStreamSetValue c v).2 = [(valueStreamSetValue c v).1]) ∧
    (∀ (f : PyVal → PyVal) (c v : PyVal),
      (mapStreamUpdateValue f c v).2 = [] ∧ (mapStreamUpdateValue f c v).1 = c ∨
      (mapStreamUpdateValue f c v).2 = [(mapStreamUpdateValue f c v).1]) ∧
    optionalStreamValue = none := by
  refine ⟨?_, ?_, rfl⟩
  · intro c v
    by_cases h : c = v <;> simp [valueStreamSetValue, h]
  · intro f c v
    by_cases h : f v = c <;> simp [mapStreamUpdateValue, h]

/-- Claim C6: three upstream updates within period `P` of the first produce
exactly one debounce emission, carrying the last of the three values, at
time `t1 + P` (no earlier than `P` after the first update of the burst);
and a value arriving while the timer is pending leaves the scheduled fire
time unchanged (the timer is not restarted). -/
theorem debounceStream_burst_single_emission (P : Nat) (h0 v1 v2 v3 : PyVal)
    (t1 t2 t3 : Nat) (_h12 : t1 ≤ t2) (h23 : t2 ≤ t3) (hlt : t3 < t1 + P) :
    debounceRun P ⟨h0, none⟩ [(t1, v1), (t2, v2), (t3, v3)] = [(t1 + P, v3)] ∧
    (∀ (s : DebounceState) (t : Nat) (v : PyVal) (d : Nat), s.taskDue = some d →
      (debounceValueChanged P s t v).taskDue = some d) := by
  constructor
  · have hn2 : ¬ (t1 + P ≤ t2) := by omega
    have hn3 : ¬ (t1 + P ≤ t3) := by omega
    simp [debounceRun, debounceStep, debounceValueChanged, hn2, hn3]
  · intro s t v d h
    have h2 : ({ s with holder := v } : DebounceState).taskDue = some d := h
    unfold debounceValueChanged
    rw [h2]

/-- Witness for the C6 theorem: period 10, updates at times 0, 1, 2 with
values 1, 2, 3, and a concrete pending-timer state. -/
theorem debounceStream_burst_single_emission_witness :
    debounceRun 10 ⟨none, none⟩ [(0, some 1), (1, some 2), (2, some 3)] = [(10, some 3)] ∧
    (debounceValueChanged 10 ⟨some 9, some 4⟩ 7 (some 8)).taskDue = some 4 :=
  ⟨(debounceStream_burst_single_emission 10 none (some 1) (some 2) (some 3) 0 1 2
      (by decide) (by decide) (by decide)).1,
   (debounceStream_burst_single_emission 10 none (some 1) (some 2) (some 3) 0 1 2
      (by decide) (by decide) (by decide)).2 ⟨some 9, some 4⟩ 7 (some 8) 4 rfl⟩

/-- Claim C7: in a `select(f).cache()` pipeline with an attached subscriber,
publishing 5 then 5 again to the upstream publisher yields exactly one
downstream next-value notification (carrying `f(5)`); subsequently
publishing 6 yields a second (carrying `f(6)`).  The transform is assumed
not to map 5 to the cache's initial `None` and to distinguish 6 from 5. -/
theorem selectCache_pipeline_dedups (f : PyVal → PyVal)
    (h5 : f (some 5) ≠ none) (h65 : f (some 6) ≠ f (some 5)) :
    selectCachePipeline f [some 5, some 5] = [f (some 5)] ∧
    selectCachePipeline f [some 5, some 5, some 6] = [f (some 5), f (some 6)] := by
  constructor <;>
    simp [selectCachePipeline, publisherCacheRun, publisherCacheNextValue, h5, h65]

/-- Witness for the C7 theorem with the identity transform. -/
theorem selectCache_pipeline_dedups_witness :
    selectCachePipeline (fun v => v) [some 5, some 5] = [some 5] ∧
    selectCachePipeline (fun v => v) [some 5, some 5, some 6] = [some 5, some 6] :=
  selectCache_pipeline_dedups (fun v => v) (by decide) (by decide)

/-- Claim C8 (counterexample): publishing the falsy value 0 through
`select` with the identity transform stores 0 as the last value, but a
subscriber joining afterwards receives no replay from either `select` or
`cache` — the replay is gated on Python truthiness (`if self.__last_value:`),
so falsy values like 0 are not replayed, contrary to the claim. -/
theorem select_replay_skips_falsy :
    publisherSelectLast (fun v => v) [some 0] = some 0 ∧
    publisherSelectReplay (some 0) = [] ∧
    publisherCacheReplay (some 0) = [] ∧
    publisherSelectReplay (some 0) ≠ [some 0] :=
  ⟨rfl, rfl, rfl, by decide⟩

/-- Claim C8 (amended): a subscriber that joins a `select`/`cache` derived
publisher after values were published immediately receives a replay of the
stored last value exactly when that value is truthy; a falsy stored value
(`None`, 0, `False`) is not replayed. -/
theorem replay_gated_on_truthiness (v : PyVal) :
    (publisherSelectReplay v = [v] ↔ pyTruthy v = true) ∧
    (publisherSelectReplay v = [] ↔ pyTruthy v = false) ∧
    (publisherCacheReplay v = [v] ↔ pyTruthy v = true) ∧
    (publisherCacheReplay v = [] ↔ pyTruthy v = false) := by
  by_cases h : pyTruthy v <;> simp [publisherSelectReplay, publisherCacheReplay, h]

/-- Once `__fn` has been consumed, every further `execute`/`cancel` is a no-op. -/
theorem runTask_consumed (ops : List TaskOp) (s : TaskState) (h : s.fnPresent = false) :
    runTask ops s = s := by
  induction ops with
  | nil => rfl
  | cons op rest ih =>
    show runTask rest (taskStep op s) = s
    rw [show taskStep op s = s from by simp [taskStep, h]]
    exact ih

/-- Claim C9: for every nonempty serialized sequence of `execute`/`cancel`
calls on a `ThreadPoolTask`, the run equals the effect of the first call
alone (every later call is a no-op), the finished callback is invoked
exactly once — at that first call — and the wrapped function runs at most
once: exactly once iff the first call is `execute`. -/
theorem threadPoolTask_runs_once (op : TaskOp) (rest : List TaskOp) :
    runTask (op :: rest) TaskState.new = taskStep op TaskState.new ∧
    (runTask (op :: rest) TaskState.new).finishedCalls = 1 ∧
    (runTask (op :: rest) TaskState.new).fnRuns = (if op = .execute then 1 else 0) ∧
    (runTask (op :: rest) TaskState.new).fnRuns ≤ 1 := by
  have hstep : runTask (op :: rest) TaskState.new = taskStep op TaskState.new := by
    show runTask rest (taskStep op TaskState.new) = taskStep op TaskState.new
    apply runTask_consumed
    cases op <;> rfl
  refine ⟨hstep, ?_, ?_, ?_⟩ <;> rw [hstep] <;> cases op <;>
    simp [taskStep, TaskState.new]

end NionUtils
